import Mathlib

/-!
Verification development for the repository scanner in `src/mpr/src/main.rs`.

The program walks a root directory, spawns one concurrent pipeline per git
repository found (pull, optionally update dependencies), streams each external
command's output line-by-line through `print_with_prefix`, and fans completion
tokens into an mpsc channel so `process_repositories` returns once all
pipelines are done.

The embedding below translates each Rust function into a Lean function over an
explicit model of the external world (which commands launch, what lines they
write, how they exit).  Panics (`expect` / `unwrap`) inside a spawned task are
modelled as `Except.error`: the task aborts, sends nothing, and its channel
sender clone is dropped.
-/

namespace Mpr

/-- The subset of termcolor colors the program uses: `Color::Green` for a
process's standard output lines and `Color::Red` for its standard error
lines. -/
inductive Color where
  | green
  | red
deriving DecidableEq

/-- The two shared output destinations, `StandardStream::stdout(ColorChoice::Always)`
and `StandardStream::stderr(ColorChoice::Always)` (main.rs 203-204). -/
inductive Dest where
  | stdout
  | stderr
deriving DecidableEq

/-- One atomic operation on an output destination, as issued by
`print_with_prefix` (main.rs 253-260): a color change, a write of a string, a
color reset, or a flush.  Each single operation is atomic on the underlying
handle (the standard library locks the handle for the duration of one write
call), but the code holds no lock spanning several operations. -/
inductive WriteOp where
  | setColor (c : Color)
  | writeStr (s : String)
  | reset
  | flush
deriving DecidableEq

/-- An output destination as a recorder: the list of atomic operations written
to it so far, in order. -/
structure StreamState where
  ops : List WriteOp
deriving DecidableEq

/-- Append one atomic operation to a destination. -/
def StreamState.wr (s : StreamState) (op : WriteOp) : StreamState :=
  ⟨s.ops ++ [op]⟩

/-- The display tag written by `print_with_prefix` (main.rs 256): an opening
bracket, the repository's relative path, a closing-opening bracket pair, the
logical command name, a closing bracket and a space. -/
def tagString (relativePath prefixTag : String) : String :=
  "[" ++ relativePath ++ "][" ++ prefixTag ++ "] "

/-- Embedding of `print_with_prefix` (main.rs 253-260).  In source order: set
the foreground color, write the tag, reset the color, write the message, flush.
The `io::Result` plumbing is not modelled: every call site unwraps it and the
design assumes console writes succeed. -/
def print_with_prefix (stream : StreamState) (prefixTag message : String)
    (c : Color) (relativePath : String) : StreamState :=
  ((((stream.wr (WriteOp.setColor c)).wr
      (WriteOp.writeStr (tagString relativePath prefixTag))).wr
      WriteOp.reset).wr
      (WriteOp.writeStr message)).wr
      WriteOp.flush

/-- The sequence of atomic operations a single `print_with_prefix` call issues
on its destination. -/
def emitOps (prefixTag message : String) (c : Color) (relativePath : String) :
    List WriteOp :=
  ( print_with_prefix ⟨[]⟩ prefixTag message c relativePath).ops

/-- The operation sequence the specification describes for one emit call: set
the color, write tag and text together under that color, reset, flush.  This
definition follows the claim's wording and exists only to be compared with
`emitOps`, which is translated from the source. -/
def claimedEmitOps (prefixTag message : String) (c : Color)
    (relativePath : String) : List WriteOp :=
  [WriteOp.setColor c,
   WriteOp.writeStr (tagString relativePath prefixTag ++ message),
   WriteOp.reset,
   WriteOp.flush]

/-- All operation orders observable on one destination when two sequences of
individually-atomic operations run concurrently and no lock spans either
sequence: every merge of the two lists that keeps each list's internal order.
This is the synchronization the code actually provides for two concurrent
`print_with_prefix` calls on the same destination: each `set_color`, `write!`,
`reset` and `flush` is one atomic operation, and nothing prevents the
scheduler from switching between the two calls in between. -/
def interleavings {α : Type} : List α → List α → List (List α)
  | [], ys => [ys]
  | x :: xs, [] => [x :: xs]
  | x :: xs, y :: ys =>
      (interleavings xs (y :: ys)).map (fun l => x :: l) ++
      (interleavings (x :: xs) ys).map (fun l => y :: l)

/-- The CLI subcommand (main.rs 22-28): `Pull` pulls only, `Update` pulls and
then updates dependencies.  The program receives an `Option Action`. -/
inductive Action where
  | pull
  | update
deriving DecidableEq

/-- Behaviour of one external process invocation, the part of the world
`Command::spawn` touches: whether the spawn call itself succeeds, the lines the
process writes to each of its two captured streams (each line as delivered by
`read_line`, terminator included), and whether its exit status is success.
Failures of `child.wait` and of the stream reads are not modelled separately:
the code unwraps them and the design assumes well-behaved pipes. -/
structure ProcBehavior where
  launches : Bool
  stdoutLines : List String
  stderrLines : List String
  exitSuccess : Bool
deriving DecidableEq

/-- The external world: the behaviour of each command the program may spawn,
keyed by command name and argument list. -/
abbrev Env : Type := String → List String → ProcBehavior

/-- One call to `print_with_prefix` made by a stream-reader task (main.rs
217 and 234): the destination stream, the logical command tag, the repository's
relative path, the line text, and the color. -/
structure Emit where
  dest : Dest
  prefixTag : String
  repo : String
  text : String
  color : Color
deriving DecidableEq

/-- The atomic operations this emit call issues on its destination, via
`print_with_prefix`. -/
def Emit.ops (e : Emit) : List WriteOp :=
  emitOps e.prefixTag e.text e.color e.repo

/-- The read-emit loop of a reader task (main.rs 206-221 for the success
stream, 223-238 for the error stream) in the case where the task runs to end
of stream: read one line at a time and hand every complete line, in order, to
`print_with_prefix` with the stream's fixed color and the invocation's tag.
This is the reader's output only if nothing stops the task first; the task's
actual, cancellable execution is `streamReaderSteps`. -/
def streamReader (d : Dest) (prefixTag repo : String) (c : Color) :
    List String → List Emit
  | [] => []
  | line :: rest =>
      { dest := d, prefixTag := prefixTag, repo := repo, text := line, color := c } ::
        streamReader d prefixTag repo c rest

/-- The actual execution of a reader task.  The task is spawned detached: its
join handle is discarded (main.rs 211, 228), `run_command` awaits only
`child.wait()` (main.rs 241), and the orchestrator awaits only completion
tokens (main.rs 64) — nothing ever joins the readers.  When the drain loop
finishes, `main` returns, the async runtime is dropped, and a still-pending
reader task is cancelled at its next await with the rest of its stream unread.
The model therefore runs the read-emit loop for the number of loop iterations
the scheduler granted the task before shutdown: each completed iteration reads
one line and emits it through `print_with_prefix`; a task granted at least as
many iterations as there are lines reaches end of stream and emits them
all. -/
def streamReaderSteps (d : Dest) (prefixTag repo : String) (c : Color) :
    Nat → List String → List Emit
  | _, [] => []
  | 0, _ :: _ => []
  | Nat.succ k, line :: rest =>
      { dest := d, prefixTag := prefixTag, repo := repo, text := line, color := c } ::
        streamReaderSteps d prefixTag repo c k rest

/-- What one completed `run_command` invocation produced: the lines the
process wrote to each stream, recorded as the emits its reader task makes when
it reaches end of stream (the lines paired with the tag and color the reader
attaches), the exit status, and the final status diagnostic (main.rs 241-249),
which is printed directly, not through the tagging path.  The emit lists
describe the streams' content and attribution; they are not a guarantee of
delivery, because the source never joins the detached reader tasks — how far a
reader actually gets is `streamReaderSteps`. -/
structure CommandResult where
  stdoutEmits : List Emit
  stderrEmits : List Emit
  exitSuccess : Bool
  statusLine : String
deriving DecidableEq

/-- Embedding of `run_command` (main.rs 194-250).  The spawn is the one
fallible step: `Command::spawn` followed by `expect` panics the whole task when
the executable cannot be launched, modelled as `Except.error`.  Otherwise the
two reader tasks are spawned detached, the process is awaited, and a one-line
success or failure diagnostic is produced; a nonzero exit status is never
propagated to the caller.  The returned `CommandResult` records each stream's
lines with their attribution (the end-of-stream reader output); `run_command`
returning does not mean the readers have finished — they are never joined. -/
def run_command (env : Env) (cmd : String) (args : List String)
    (prefixTag repo : String) : Except String CommandResult :=
  if (env cmd args).launches then
    Except.ok
      { stdoutEmits := streamReader Dest.stdout prefixTag repo Color.green (env cmd args).stdoutLines
        stderrEmits := streamReader Dest.stderr prefixTag repo Color.red (env cmd args).stderrLines
        exitSuccess := (env cmd args).exitSuccess
        statusLine :=
          if (env cmd args).exitSuccess then
            "Successfully ran " ++ cmd ++ " in " ++ repo
          else
            "Failed to run " ++ cmd ++ " in " ++ repo }
  else
    Except.error "Failed to execute command"

/-- Which dependency-manager marker files exist in the repository directory:
the seven `path.join(name).exists()` checks of `update_dependencies`
(main.rs 108-190). -/
structure MarkerFiles where
  packageLockJson : Bool
  yarnLock : Bool
  pnpmLockYaml : Bool
  cargoLock : Bool
  pipfile : Bool
  poetryLock : Bool
  requirementsTxt : Bool
deriving DecidableEq

/-- One observable step of a pipeline: a plain `println!` diagnostic line, or
one `run_command` invocation together with everything it produced. -/
inductive Step where
  | diagnostic (text : String)
  | invoked (cmd : String) (args : List String) (prefixTag : String)
      (result : CommandResult)
deriving DecidableEq

/-- Embedding of `pull_repo` (main.rs 100-103): print the pulling diagnostic,
then run `git pull` through `run_command`. -/
def pull_repo (env : Env) (repo : String) : Except String (List Step) :=
  match run_command env "git" ["pull"] "Git" repo with
  | Except.error e => Except.error e
  | Except.ok r =>
      Except.ok [Step.diagnostic ("Pulling repository at " ++ repo),
                 Step.invoked "git" ["pull"] "Git" r]

/-- Embedding of `update_dependencies` (main.rs 108-190).  The Node.js family
is one if/else-if chain (package-lock.json, then yarn.lock, then
pnpm-lock.yaml), the Cargo.lock check is a separate independent if, the Python
family is another if/else-if chain (Pipfile, then poetry.lock, then
requirements.txt).  The source's mutable `updated` flag is true exactly when at
least one family matched, which here is when at least one family produced
steps; if no family matched, the no-recognized-manager diagnostic is printed
and no command is invoked.  A launch failure in any invocation panics the task
(`Except.error`), cutting the remaining steps short. -/
def update_dependencies (env : Env) (m : MarkerFiles) (repo : String) :
    Except String (List Step) :=
  match
    (if m.packageLockJson then
      match run_command env "npm" ["install"] "npm" repo with
      | Except.error e => Except.error e
      | Except.ok r =>
          Except.ok [Step.diagnostic ("Detected npm dependencies in " ++ repo ++ "/package-lock.json"),
                     Step.invoked "npm" ["install"] "npm" r]
    else if m.yarnLock then
      match run_command env "yarn" ["install"] "Yarn" repo with
      | Except.error e => Except.error e
      | Except.ok r =>
          Except.ok [Step.diagnostic ("Detected Yarn dependencies in " ++ repo ++ "/yarn.lock"),
                     Step.invoked "yarn" ["install"] "Yarn" r]
    else if m.pnpmLockYaml then
      match run_command env "pnpm" ["install"] "pnpm" repo with
      | Except.error e => Except.error e
      | Except.ok r =>
          Except.ok [Step.diagnostic ("Detected pnpm dependencies in " ++ repo ++ "/pnpm-lock.yaml"),
                     Step.invoked "pnpm" ["install"] "pnpm" r]
    else Except.ok []) with
  | Except.error e => Except.error e
  | Except.ok node =>
    match
      (if m.cargoLock then
        match run_command env "cargo" ["update"] "Cargo" repo with
        | Except.error e => Except.error e
        | Except.ok r =>
            Except.ok [Step.diagnostic ("Detected Rust dependencies in " ++ repo ++ "/Cargo.lock"),
                       Step.invoked "cargo" ["update"] "Cargo" r]
      else Except.ok []) with
    | Except.error e => Except.error e
    | Except.ok rust =>
      match
        (if m.pipfile then
          match run_command env "pipenv" ["install"] "Pipenv" repo with
          | Except.error e => Except.error e
          | Except.ok r =>
              Except.ok [Step.diagnostic ("Detected Pipenv dependencies in " ++ repo ++ "/Pipfile"),
                         Step.invoked "pipenv" ["install"] "Pipenv" r]
        else if m.poetryLock then
          match run_command env "poetry" ["update"] "Poetry" repo with
          | Except.error e => Except.error e
          | Except.ok r =>
              Except.ok [Step.diagnostic ("Detected Poetry dependencies in " ++ repo ++ "/poetry.lock"),
                         Step.invoked "poetry" ["update"] "Poetry" r]
        else if m.requirementsTxt then
          match run_command env "pip" ["install", "-r", "requirements.txt"] "pip" repo with
          | Except.error e => Except.error e
          | Except.ok r =>
              Except.ok [Step.diagnostic ("Detected pip dependencies in " ++ repo ++ "/requirements.txt"),
                         Step.invoked "pip" ["install", "-r", "requirements.txt"] "pip" r]
        else Except.ok []) with
      | Except.error e => Except.error e
      | Except.ok py =>
          Except.ok (Step.diagnostic ("Updating dependencies for " ++ repo) ::
            (node ++ rust ++ py ++
              (if node.isEmpty && rust.isEmpty && py.isEmpty then
                [Step.diagnostic ("No recognized dependency manager found for " ++ repo)]
              else [])))

/-- Embedding of `process_repository` (main.rs 68-89): print the found
diagnostic, then dispatch on the optional subcommand.  `Some(Pull)` pulls only;
`Some(Update)` and `None` each pull and then update dependencies, written as
two separate but identical arms exactly as in the source. -/
def process_repository (env : Env) (action : Option Action) (m : MarkerFiles)
    (repo : String) : Except String (List Step) :=
  match action with
  | some Action.pull =>
      (match pull_repo env repo with
       | Except.error e => Except.error e
       | Except.ok ps =>
           Except.ok (Step.diagnostic ("Found repository: " ++ repo) :: ps))
  | some Action.update =>
      (match pull_repo env repo with
       | Except.error e => Except.error e
       | Except.ok ps =>
           match update_dependencies env m repo with
           | Except.error e => Except.error e
           | Except.ok us =>
               Except.ok (Step.diagnostic ("Found repository: " ++ repo) :: (ps ++ us)))
  | none =>
      (match pull_repo env repo with
       | Except.error e => Except.error e
       | Except.ok ps =>
           match update_dependencies env m repo with
           | Except.error e => Except.error e
           | Except.ok us =>
               Except.ok (Step.diagnostic ("Found repository: " ++ repo) :: (ps ++ us)))

/-- How many CompletionTokens the spawned task for one repository sends on the
channel (main.rs 54-58).  The task body is `process_repository` followed by
`tx.send(())`: a normal return sends exactly one token; a panic anywhere inside
(`Except.error`) aborts the task before the send, so zero tokens are sent. -/
def pipelineTokens (env : Env) (action : Option Action) (m : MarkerFiles)
    (repo : String) : Nat :=
  match process_repository env action m repo with
  | Except.ok _ => 1
  | Except.error _ => 0

/-- One entry yielded by the `WalkDir` traversal after `filter_map(ok)`
(main.rs 46): its path relative to the scan root, whether `Repository::open`
succeeds on it, which marker files it contains and how external commands
behave in it. -/
structure DirEntry where
  rel : String
  isGitRepo : Bool
  markers : MarkerFiles
  env : Env

/-- Embedding of `is_git_repo` (main.rs 92-94): whether `Repository::open`
succeeds, which the model carries on the entry. -/
def is_git_repo (e : DirEntry) : Bool := e.isGitRepo

/-- The entries the orchestrator spawns a pipeline for: exactly those passing
`is_git_repo` (main.rs 51). -/
def discovered (entries : List DirEntry) : List DirEntry :=
  entries.filter is_git_repo

/-- Bookkeeping state of the completion channel: how many sender clones are
still alive, how many sent tokens sit in the buffer, and how many tokens the
drain loop has received. -/
structure ChannelState where
  senders : Nat
  buffered : Nat
  received : Nat
deriving DecidableEq

/-- The sender-lifecycle events of one `process_repositories` run: `tx.clone()`
before a spawn (main.rs 52), the drop of the original `tx` after the walk
(main.rs 62), and the finish of one spawned task — which buffers a token
exactly when the task completed normally, and in every case (normal return or
panic-abort) drops that task's sender clone. -/
inductive OrchEvent where
  | cloneSender
  | dropMainSender
  | taskFinish (sent : Bool)
deriving DecidableEq

/-- Effect of one sender-lifecycle event on the channel. -/
def applyEvent (s : ChannelState) : OrchEvent → ChannelState
  | OrchEvent.cloneSender => { s with senders := s.senders + 1 }
  | OrchEvent.dropMainSender => { s with senders := s.senders - 1 }
  | OrchEvent.taskFinish true =>
      { s with senders := s.senders - 1, buffered := s.buffered + 1 }
  | OrchEvent.taskFinish false => { s with senders := s.senders - 1 }

/-- The sender-lifecycle events of a run, in a canonical serialization: all
clones, the drop of the original sender, then every task finishing.  The final
sender count and the total number of buffered tokens are the same under any
interleaving, because each event only adds or removes a fixed amount. -/
def runEvents (entries : List DirEntry) (action : Option Action) :
    List OrchEvent :=
  (discovered entries).map (fun _ => OrchEvent.cloneSender)
    ++ [OrchEvent.dropMainSender]
    ++ (discovered entries).map
        (fun e => OrchEvent.taskFinish (pipelineTokens e.env action e.markers e.rel == 1))

/-- Channel state once the walk is over, the original sender is dropped and
every spawned task has finished (normally or by panic).  The channel starts
with the single sender `tx` created at main.rs 44. -/
def channelAfterRun (entries : List DirEntry) (action : Option Action) :
    ChannelState :=
  (runEvents entries action).foldl applyEvent
    { senders := 1, buffered := 0, received := 0 }

/-- The drain loop `while rx.recv().await.is_some()` (main.rs 64) once the
channel has closed: with no sender alive, `recv` yields each buffered token in
turn and then `none`, so the loop receives exactly the buffered tokens and
exits.  Its argument order is buffered tokens remaining, tokens received so
far; it is total, which is exactly the point: once every sender is dropped the
loop cannot wait forever. -/
def recvLoop : Nat → Nat → Nat
  | 0, received => received
  | Nat.succ b, received => recvLoop b (received + 1)

/-- Embedding of `process_repositories` (main.rs 43-65): walk the entries,
spawn one pipeline per git repository, drop the original sender, and drain the
completion channel.  The returned number is the count of completion signals
observed before the function returns. -/
def process_repositories (entries : List DirEntry) (action : Option Action) :
    Nat :=
  recvLoop (channelAfterRun entries action).buffered 0

/-- Total number of completion tokens the spawned pipelines send in one run. -/
def tokensSent (entries : List DirEntry) (action : Option Action) : Nat :=
  ((discovered entries).map
    (fun e => pipelineTokens e.env action e.markers e.rel)).sum

/-- Embedding of `main` (main.rs 31-40): print the banner, parse arguments,
run `process_repositories`, return.  `main` returns unit, so the process exit
status is 0 whenever `main` returns normally.  Panics inside spawned pipeline
tasks are caught by the async runtime (the unawaited join handles absorb
them), so no command failure — launch failure or nonzero exit status — can
reach `main`; the drain loop itself cannot panic.  The modelled value is the
process exit status. -/
def main (entries : List DirEntry) (action : Option Action) : Nat :=
  let _ := process_repositories entries action
  0

/-- The projection of a pipeline trace to its command invocations, in order:
command name, argument list, logical tag. -/
def invocations : List Step → List (String × List String × String)
  | [] => []
  | Step.diagnostic _ :: rest => invocations rest
  | Step.invoked c a p _ :: rest => (c, a, p) :: invocations rest

/-- Command invocations of a possibly-aborted trace; an aborted task has no
recorded trace. -/
def invocationsOf : Except String (List Step) →
    List (String × List String × String)
  | Except.error _ => []
  | Except.ok t => invocations t

/-- An external world in which every process launch succeeds (exit statuses
and output lines are unconstrained). -/
def allLaunched (env : Env) : Prop :=
  ∀ c a, (env c a).launches = true

/-- A world in which every command launches, prints nothing and exits
successfully. -/
def envAll : Env :=
  fun _ _ => { launches := true, stdoutLines := [], stderrLines := [], exitSuccess := true }

/-- A world in which no command can be launched: every `Command::spawn` fails,
so every `expect("Failed to execute command")` panics. -/
def envLaunchFail : Env :=
  fun _ _ => { launches := false, stdoutLines := [], stderrLines := [], exitSuccess := true }

/-- A repository carrying both an npm and a Cargo marker (the two-family
scenario of the specification). -/
def markersW : MarkerFiles :=
  { packageLockJson := true, yarnLock := false, pnpmLockYaml := false,
    cargoLock := true, pipfile := false, poetryLock := false,
    requirementsTxt := false }

/-- A repository with no recognized marker file. -/
def markersNone : MarkerFiles :=
  { packageLockJson := false, yarnLock := false, pnpmLockYaml := false,
    cargoLock := false, pipfile := false, poetryLock := false,
    requirementsTxt := false }

/-- A discovered repository in which every command launches. -/
def entryOk : DirEntry :=
  { rel := "A", isGitRepo := true, markers := markersW, env := envAll }

/-- A walked directory that is not a git repository. -/
def entryNotRepo : DirEntry :=
  { rel := "x", isGitRepo := false, markers := markersW, env := envAll }

/-- A discovered repository in which no command can be launched, so its
pipeline task panics at the first spawn. -/
def entryFail : DirEntry :=
  { rel := "r", isGitRepo := true, markers := markersW, env := envLaunchFail }

/-- A world where `git` launches but exits with failure while every other
command launches and succeeds. -/
def envPullFails : Env :=
  fun c _ =>
    if c = "git" then
      { launches := true, stdoutLines := [], stderrLines := ["error: fail\n"], exitSuccess := false }
    else
      { launches := true, stdoutLines := [], stderrLines := [], exitSuccess := true }

/-- The same world as `envPullFails` except that `git` exits successfully. -/
def envPullSucceeds : Env :=
  fun c _ =>
    if c = "git" then
      { launches := true, stdoutLines := ["Already up to date.\n"], stderrLines := [], exitSuccess := true }
    else
      { launches := true, stdoutLines := [], stderrLines := [], exitSuccess := true }

/-- A world whose processes write concrete lines on both streams. -/
def envLines : Env :=
  fun _ _ =>
    { launches := true, stdoutLines := ["out one\n", "out two\n"],
      stderrLines := ["err one\n"], exitSuccess := true }

/-- The operations of a concrete emit call on the standard-output destination:
a git line of repository a. -/
def opsA : List WriteOp := emitOps "Git" "hello\n" Color.green "a"

/-- The operations of a concrete concurrent emit call on the same destination:
an npm line of repository b. -/
def opsB : List WriteOp := emitOps "npm" "world\n" Color.red "b"

/-- A merge of `opsA` and `opsB` in which the second call's five operations
land between the first operation and the tag write of the first call. -/
def badMerge : List WriteOp :=
  WriteOp.setColor Color.green :: (opsB ++ opsA.drop 1)

theorem streamReader_map_text (d : Dest) (p r : String) (c : Color) :
    ∀ ls : List String, (streamReader d p r c ls).map Emit.text = ls := by
  intro ls
  induction ls with
  | nil => rfl
  | cons line rest ih => simp [streamReader, ih]

theorem streamReader_fields (d : Dest) (p r : String) (c : Color) :
    ∀ ls : List String, ∀ e ∈ streamReader d p r c ls,
      e.dest = d ∧ e.color = c ∧ e.prefixTag = p ∧ e.repo = r := by
  intro ls
  induction ls with
  | nil => intro e he; cases he
  | cons line rest ih =>
    intro e he
    rcases List.mem_cons.mp he with rfl | he2
    · exact ⟨rfl, rfl, rfl, rfl⟩
    · exact ih e he2

theorem sublist_left_of_mem_interleavings {α : Type} :
    ∀ (xs ys l : List α), l ∈ interleavings xs ys → xs.Sublist l := by
  intro xs
  induction xs with
  | nil =>
    intro ys l h
    simp [interleavings] at h
    subst h
    exact List.nil_sublist _
  | cons x xs ihx =>
    intro ys
    induction ys with
    | nil =>
      intro l h
      simp [interleavings] at h
      subst h
      exact List.Sublist.refl _
    | cons y ys ihy =>
      intro l h
      simp only [interleavings, List.mem_append, List.mem_map] at h
      rcases h with ⟨l1, hl1, rfl⟩ | ⟨l1, hl1, rfl⟩
      · exact List.Sublist.cons₂ x (ihx (y :: ys) l1 hl1)
      · exact List.Sublist.cons y (ihy l1 hl1)

theorem sublist_right_of_mem_interleavings {α : Type} :
    ∀ (xs ys l : List α), l ∈ interleavings xs ys → ys.Sublist l := by
  intro xs
  induction xs with
  | nil =>
    intro ys l h
    simp [interleavings] at h
    subst h
    exact List.Sublist.refl _
  | cons x xs ihx =>
    intro ys
    induction ys with
    | nil =>
      intro l h
      simp [interleavings] at h
      subst h
      exact List.nil_sublist _
    | cons y ys ihy =>
      intro l h
      simp only [interleavings, List.mem_append, List.mem_map] at h
      rcases h with ⟨l1, hl1, rfl⟩ | ⟨l1, hl1, rfl⟩
      · exact List.Sublist.cons x (ihx (y :: ys) l1 hl1)
      · exact List.Sublist.cons₂ y (ihy l1 hl1)

theorem append_mem_interleavings {α : Type} :
    ∀ (xs ys : List α), xs ++ ys ∈ interleavings xs ys := by
  intro xs
  induction xs with
  | nil => intro ys; simp [interleavings]
  | cons x xs ih =>
    intro ys
    cases ys with
    | nil => simp [interleavings]
    | cons y ys =>
      simp only [interleavings, List.mem_append, List.mem_map, List.cons_append]
      exact Or.inl ⟨xs ++ y :: ys, ih (y :: ys), rfl⟩

theorem append_rev_mem_interleavings {α : Type} :
    ∀ (xs ys : List α), ys ++ xs ∈ interleavings xs ys := by
  intro xs ys
  induction ys with
  | nil =>
    cases xs with
    | nil => simp [interleavings]
    | cons x xs => simp [interleavings]
  | cons y ys ih =>
    cases xs with
    | nil => simp [interleavings]
    | cons x xs =>
      simp only [interleavings, List.mem_append, List.mem_map, List.cons_append]
      exact Or.inr ⟨ys ++ x :: xs, ih, rfl⟩

theorem cons_mem_interleavings_left {α : Type} (x : α) :
    ∀ (xs ys l : List α), l ∈ interleavings xs ys →
      x :: l ∈ interleavings (x :: xs) ys := by
  intro xs ys l h
  cases ys with
  | nil =>
    cases xs with
    | nil => simp [interleavings] at h; subst h; simp [interleavings]
    | cons a as => simp [interleavings] at h; subst h; simp [interleavings]
  | cons y ys =>
    simp only [interleavings, List.mem_append, List.mem_map]
    exact Or.inl ⟨l, h, rfl⟩

/-- C6 counterexample: a concrete `print_with_prefix` call writes the color
escape, then the tag alone, then the color reset, then the line text, then the
flush — five operations, with the line text written after the reset and hence
outside the call's color, not the claimed four-operation sequence in which tag
and text are written together before the reset. -/
theorem emit_writes_text_after_reset :
    emitOps "Git" "hello\n" Color.green "a" =
      [WriteOp.setColor Color.green, WriteOp.writeStr "[a][Git] ",
       WriteOp.reset, WriteOp.writeStr "hello\n", WriteOp.flush] ∧
    emitOps "Git" "hello\n" Color.green "a" ≠
      claimedEmitOps "Git" "hello\n" Color.green "a" := by
  exact ⟨rfl, by decide⟩

/-- C6 (amended): for every emit call, the bytes written to the destination
are, in order: set the color, write the tag (an opening bracket, the relative
repository path, bracket pair, the logical command name, closing bracket,
space), reset the color, write the line text, flush.  The tag is deterministic
and parseable, but only the tag — not the line text — is written under the
call's color: the text follows the reset. -/
theorem emit_byte_order (prefixTag message : String) (c : Color)
    (relativePath : String) :
    emitOps prefixTag message c relativePath =
      [WriteOp.setColor c,
       WriteOp.writeStr ("[" ++ relativePath ++ "][" ++ prefixTag ++ "] "),
       WriteOp.reset, WriteOp.writeStr message, WriteOp.flush] := rfl

/-- C2 counterexample: a valid concurrent execution of two `print_with_prefix`
calls on the same destination in which the bytes of one call land strictly
inside the other call's sequence — the code holds no lock across the five
operations of a call, so this merge is observable, and it is neither of the
two non-interleaved orders. -/
theorem emit_calls_can_interleave :
    badMerge ∈ interleavings opsA opsB ∧
      badMerge ≠ opsA ++ opsB ∧ badMerge ≠ opsB ++ opsA := by
  refine ⟨?_, by decide, by decide⟩
  exact cons_mem_interleavings_left (WriteOp.setColor Color.green)
    (opsA.drop 1) opsB (opsB ++ opsA.drop 1)
    (append_rev_mem_interleavings (opsA.drop 1) opsB)

/-- C2 (amended): each of the five operations of an emit call is individually
atomic on its destination and every observable execution of two concurrent
emit calls to the same destination preserves each call's own operation order
(each call's sequence is a sublist of the observed sequence); but the two
sequences can interleave with each other at operation level — there is no
per-call mutual exclusion in the code. -/
theorem emit_interleaving_preserves_each_call
    (p1 m1 r1 p2 m2 r2 : String) (c1 c2 : Color) (l : List WriteOp)
    (h : l ∈ interleavings (emitOps p1 m1 c1 r1) (emitOps p2 m2 c2 r2)) :
    (emitOps p1 m1 c1 r1).Sublist l ∧ (emitOps p2 m2 c2 r2).Sublist l :=
  ⟨sublist_left_of_mem_interleavings _ _ _ h,
   sublist_right_of_mem_interleavings _ _ _ h⟩

theorem emit_interleaving_preserves_each_call_witness :
    (opsA ++ opsB) ∈ interleavings opsA opsB ∧
      opsA.Sublist (opsA ++ opsB) ∧ opsB.Sublist (opsA ++ opsB) :=
  ⟨append_mem_interleavings opsA opsB,
   emit_interleaving_preserves_each_call "Git" "hello\n" "a" "npm" "world\n" "b"
     Color.green Color.red (opsA ++ opsB) (append_mem_interleavings opsA opsB)⟩

theorem streamReaderSteps_map_text (d : Dest) (p r : String) (c : Color) :
    ∀ (ls : List String) (k : Nat),
      (streamReaderSteps d p r c k ls).map Emit.text = ls.take k := by
  intro ls
  induction ls with
  | nil => intro k; cases k <;> simp [streamReaderSteps]
  | cons line rest ih =>
    intro k
    cases k with
    | zero => simp [streamReaderSteps]
    | succ k => simp [streamReaderSteps, ih]

theorem streamReaderSteps_fields (d : Dest) (p r : String) (c : Color) :
    ∀ (ls : List String) (k : Nat), ∀ e ∈ streamReaderSteps d p r c k ls,
      e.dest = d ∧ e.color = c ∧ e.prefixTag = p ∧ e.repo = r := by
  intro ls
  induction ls with
  | nil => intro k e he; cases k <;> cases he
  | cons line rest ih =>
    intro k e he
    cases k with
    | zero => cases he
    | succ k =>
      rcases List.mem_cons.mp he with rfl | he2
      · exact ⟨rfl, rfl, rfl, rfl⟩
      · exact ih k e he2

theorem streamReaderSteps_drained (d : Dest) (p r : String) (c : Color) :
    ∀ (ls : List String) (k : Nat), ls.length ≤ k →
      streamReaderSteps d p r c k ls = streamReader d p r c ls := by
  intro ls
  induction ls with
  | nil => intro k hk; cases k <;> simp [streamReaderSteps, streamReader]
  | cons line rest ih =>
    intro k hk
    cases k with
    | zero => simp at hk
    | succ k =>
      simp only [List.length_cons, Nat.succ_le_succ_iff] at hk
      simp only [streamReaderSteps, streamReader]
      rw [ih k hk]

/-- C7 counterexample: an execution of one launched invocation in which the
process wrote two lines to its standard-output stream but only the first is
ever emitted.  The reader tasks are spawned with their join handles discarded
(main.rs 211, 228); `run_command` awaits only process exit and the
orchestrator only completion tokens, so once the drain loop finishes the
runtime shuts down and cancels a reader that was granted a single loop
iteration — the second line is dropped, never reaching the Multiplexer. -/
theorem reader_cancellation_drops_line :
    (envLines "git" ["pull"]).stdoutLines = ["out one\n", "out two\n"] ∧
    (streamReaderSteps Dest.stdout "Git" "A" Color.green 1
        (envLines "git" ["pull"]).stdoutLines).map Emit.text = ["out one\n"] ∧
    "out two\n" ∉ (streamReaderSteps Dest.stdout "Git" "A" Color.green 1
        (envLines "git" ["pull"]).stdoutLines).map Emit.text := by
  decide

/-- C7 (amended): for any single launched `run_command` invocation, each
reader task emits, through the Multiplexer, exactly the lines it reads before
being stopped: granted `k` loop iterations by the scheduler, its emitted texts
are precisely the first `k` lines the process wrote to that stream — a prefix,
in order, each line once, every emit carrying the stream's correct color
(success green, error red) and the invocation's repository and command tag, so
nothing emitted is duplicated, reordered or misattributed.  A reader that
reaches end of stream (granted at least as many iterations as lines) emits
every line exactly once — the full emit lists recorded in the invocation's
result; but because the reader tasks are never joined, a reader cancelled at
runtime shutdown drops the remaining tail of its stream. -/
theorem run_command_emits_read_lines (env : Env) (cmd : String)
    (args : List String) (prefixTag repo : String) (k1 k2 : Nat)
    (h : (env cmd args).launches = true) :
    ∃ res, run_command env cmd args prefixTag repo = Except.ok res ∧
      (streamReaderSteps Dest.stdout prefixTag repo Color.green k1
          (env cmd args).stdoutLines).map Emit.text =
        (env cmd args).stdoutLines.take k1 ∧
      (streamReaderSteps Dest.stderr prefixTag repo Color.red k2
          (env cmd args).stderrLines).map Emit.text =
        (env cmd args).stderrLines.take k2 ∧
      (∀ e ∈ streamReaderSteps Dest.stdout prefixTag repo Color.green k1
          (env cmd args).stdoutLines,
        e.dest = Dest.stdout ∧ e.color = Color.green ∧
          e.prefixTag = prefixTag ∧ e.repo = repo) ∧
      (∀ e ∈ streamReaderSteps Dest.stderr prefixTag repo Color.red k2
          (env cmd args).stderrLines,
        e.dest = Dest.stderr ∧ e.color = Color.red ∧
          e.prefixTag = prefixTag ∧ e.repo = repo) ∧
      ((env cmd args).stdoutLines.length ≤ k1 →
        streamReaderSteps Dest.stdout prefixTag repo Color.green k1
            (env cmd args).stdoutLines = res.stdoutEmits) ∧
      ((env cmd args).stderrLines.length ≤ k2 →
        streamReaderSteps Dest.stderr prefixTag repo Color.red k2
            (env cmd args).stderrLines = res.stderrEmits) := by
  refine
    ⟨{ stdoutEmits := streamReader Dest.stdout prefixTag repo Color.green (env cmd args).stdoutLines
       stderrEmits := streamReader Dest.stderr prefixTag repo Color.red (env cmd args).stderrLines
       exitSuccess := (env cmd args).exitSuccess
       statusLine :=
         if (env cmd args).exitSuccess then
           "Successfully ran " ++ cmd ++ " in " ++ repo
         else
           "Failed to run " ++ cmd ++ " in " ++ repo },
     ?_, ?_, ?_, ?_, ?_, ?_, ?_⟩
  · simp [run_command, h]
  · exact streamReaderSteps_map_text _ _ _ _ _ _
  · exact streamReaderSteps_map_text _ _ _ _ _ _
  · exact streamReaderSteps_fields _ _ _ _ _ _
  · exact streamReaderSteps_fields _ _ _ _ _ _
  · intro hk; exact streamReaderSteps_drained _ _ _ _ _ _ hk
  · intro hk; exact streamReaderSteps_drained _ _ _ _ _ _ hk

theorem run_command_emits_read_lines_witness :
    (envLines "git" ["pull"]).launches = true ∧
    (∃ res, run_command envLines "git" ["pull"] "Git" "A" = Except.ok res ∧
      (streamReaderSteps Dest.stdout "Git" "A" Color.green 1
          (envLines "git" ["pull"]).stdoutLines).map Emit.text =
        (envLines "git" ["pull"]).stdoutLines.take 1 ∧
      (streamReaderSteps Dest.stderr "Git" "A" Color.red 1
          (envLines "git" ["pull"]).stderrLines).map Emit.text =
        (envLines "git" ["pull"]).stderrLines.take 1 ∧
      (∀ e ∈ streamReaderSteps Dest.stdout "Git" "A" Color.green 1
          (envLines "git" ["pull"]).stdoutLines,
        e.dest = Dest.stdout ∧ e.color = Color.green ∧
          e.prefixTag = "Git" ∧ e.repo = "A") ∧
      (∀ e ∈ streamReaderSteps Dest.stderr "Git" "A" Color.red 1
          (envLines "git" ["pull"]).stderrLines,
        e.dest = Dest.stderr ∧ e.color = Color.red ∧
          e.prefixTag = "Git" ∧ e.repo = "A") ∧
      ((envLines "git" ["pull"]).stdoutLines.length ≤ 1 →
        streamReaderSteps Dest.stdout "Git" "A" Color.green 1
            (envLines "git" ["pull"]).stdoutLines = res.stdoutEmits) ∧
      ((envLines "git" ["pull"]).stderrLines.length ≤ 1 →
        streamReaderSteps Dest.stderr "Git" "A" Color.red 1
            (envLines "git" ["pull"]).stderrLines = res.stderrEmits)) :=
  ⟨rfl, run_command_emits_read_lines envLines "git" ["pull"] "Git" "A" 1 1 rfl⟩

/-- C9: processing a repository with no subcommand performs exactly the same
steps as processing it with the update subcommand: the `None` arm and the
`Some(Update)` arm of `process_repository` are identical (pull, then
dependency update), for every world, marker set and repository. -/
theorem no_subcommand_defaults_to_update (env : Env) (m : MarkerFiles)
    (repo : String) :
    process_repository env none m repo =
      process_repository env (some Action.update) m repo := rfl

/-- C8: the process always exits with status 0.  `main` returns unit; panics
raised inside spawned pipeline tasks (for example by a failed launch) are
absorbed by the runtime through the dropped join handles and never reach
`main`, and an external command's nonzero exit status only produces a printed
diagnostic inside `run_command`.  So for every walked directory tree, every
world — including worlds where commands fail to launch or exit nonzero — and
every action, the modelled exit status is 0. -/
theorem process_exits_zero (entries : List DirEntry)
    (action : Option Action) : main entries action = 0 := rfl

theorem update_dependencies_dispatch_aux (env : Env) (m : MarkerFiles)
    (repo : String) (h : allLaunched env) :
    (∃ t, update_dependencies env m repo = Except.ok t) ∧
    invocationsOf (update_dependencies env m repo) =
      (if m.packageLockJson then [("npm", ["install"], "npm")]
       else if m.yarnLock then [("yarn", ["install"], "Yarn")]
       else if m.pnpmLockYaml then [("pnpm", ["install"], "pnpm")]
       else [])
      ++ (if m.cargoLock then [("cargo", ["update"], "Cargo")] else [])
      ++ (if m.pipfile then [("pipenv", ["install"], "Pipenv")]
          else if m.poetryLock then [("poetry", ["update"], "Poetry")]
          else if m.requirementsTxt then
            [("pip", ["install", "-r", "requirements.txt"], "pip")]
          else []) ∧
    (m = markersNone →
      update_dependencies env m repo =
        Except.ok [Step.diagnostic ("Updating dependencies for " ++ repo),
                   Step.diagnostic ("No recognized dependency manager found for " ++ repo)]) := by
  obtain ⟨pl, yl, pn, cl, pf, po, rq⟩ := m
  have hnpm := h "npm" ["install"]
  have hyarn := h "yarn" ["install"]
  have hpnpm := h "pnpm" ["install"]
  have hcargo := h "cargo" ["update"]
  have hpipenv := h "pipenv" ["install"]
  have hpoetry := h "poetry" ["update"]
  have hpip := h "pip" ["install", "-r", "requirements.txt"]
  cases pl <;> cases yl <;> cases pn <;> cases cl <;> cases pf <;> cases po <;> cases rq <;>
    simp [update_dependencies, run_command, hnpm, hyarn, hpnpm, hcargo,
          hpipenv, hpoetry, hpip, invocationsOf, invocations, markersNone]

theorem update_dependencies_env_congr (env1 env2 : Env) (m : MarkerFiles)
    (repo : String) (h : ∀ c a, c ≠ "git" → env1 c a = env2 c a) :
    update_dependencies env1 m repo = update_dependencies env2 m repo := by
  have hnpm : env1 "npm" ["install"] = env2 "npm" ["install"] := h _ _ (by decide)
  have hyarn : env1 "yarn" ["install"] = env2 "yarn" ["install"] := h _ _ (by decide)
  have hpnpm : env1 "pnpm" ["install"] = env2 "pnpm" ["install"] := h _ _ (by decide)
  have hcargo : env1 "cargo" ["update"] = env2 "cargo" ["update"] := h _ _ (by decide)
  have hpipenv : env1 "pipenv" ["install"] = env2 "pipenv" ["install"] := h _ _ (by decide)
  have hpoetry : env1 "poetry" ["update"] = env2 "poetry" ["update"] := h _ _ (by decide)
  have hpip : env1 "pip" ["install", "-r", "requirements.txt"] =
      env2 "pip" ["install", "-r", "requirements.txt"] := h _ _ (by decide)
  simp only [update_dependencies, run_command, hnpm, hyarn, hpnpm, hcargo,
             hpipenv, hpoetry, hpip]

theorem pull_repo_ok (env : Env) (repo : String)
    (h : (env "git" ["pull"]).launches = true) :
    ∃ r, pull_repo env repo =
      Except.ok [Step.diagnostic ("Pulling repository at " ++ repo),
                 Step.invoked "git" ["pull"] "Git" r] := by
  simp [pull_repo, run_command, h]

theorem process_repository_ok (env : Env) (action : Option Action)
    (m : MarkerFiles) (repo : String) (h : allLaunched env) :
    ∃ t, process_repository env action m repo = Except.ok t := by
  obtain ⟨u, hu⟩ := (update_dependencies_dispatch_aux env m repo h).1
  obtain ⟨r, hp⟩ := pull_repo_ok env repo (h "git" ["pull"])
  cases action with
  | none => simp [process_repository, hp, hu]
  | some a =>
    cases a with
    | pull => simp [process_repository, hp]
    | update => simp [process_repository, hp, hu]

theorem pipelineTokens_eq_one (env : Env) (action : Option Action)
    (m : MarkerFiles) (repo : String) (h : allLaunched env) :
    pipelineTokens env action m repo = 1 := by
  obtain ⟨t, ht⟩ := process_repository_ok env action m repo h
  simp [pipelineTokens, ht]

theorem pipelineTokens_le_one (env : Env) (action : Option Action)
    (m : MarkerFiles) (repo : String) :
    pipelineTokens env action m repo ≤ 1 := by
  unfold pipelineTokens
  cases process_repository env action m repo <;> simp

theorem foldl_clone_events {β : Type} (l : List β) :
    ∀ n b r : Nat,
      (l.map (fun _ => OrchEvent.cloneSender)).foldl applyEvent ⟨n, b, r⟩ =
        ⟨n + l.length, b, r⟩ := by
  induction l with
  | nil => intro n b r; simp
  | cons e l ih =>
    intro n b r
    simp only [List.map_cons, List.foldl_cons, applyEvent, List.length_cons]
    rw [ih]
    congr 1
    omega

theorem foldl_finish_events (l : List DirEntry) (f : DirEntry → Bool) :
    ∀ n b r : Nat,
      (l.map (fun e => OrchEvent.taskFinish (f e))).foldl applyEvent ⟨n, b, r⟩ =
        ⟨n - l.length, b + l.countP f, r⟩ := by
  induction l with
  | nil => intro n b r; simp
  | cons e l ih =>
    intro n b r
    cases hf : f e <;>
      simp only [List.map_cons, List.foldl_cons, applyEvent, hf,
                 List.length_cons, List.countP_cons] <;>
      rw [ih] <;> simp [hf, ChannelState.mk.injEq] <;> omega

theorem channelAfterRun_eq (entries : List DirEntry) (action : Option Action) :
    channelAfterRun entries action =
      ⟨0, (discovered entries).countP
            (fun e => pipelineTokens e.env action e.markers e.rel == 1), 0⟩ := by
  unfold channelAfterRun runEvents
  rw [List.foldl_append, List.foldl_append, foldl_clone_events]
  simp only [List.foldl_cons, List.foldl_nil, applyEvent]
  rw [foldl_finish_events]
  simp [ChannelState.mk.injEq]

theorem recvLoop_eq (b : Nat) : ∀ r : Nat, recvLoop b r = r + b := by
  induction b with
  | zero => intro r; simp [recvLoop]
  | succ b ih =>
    intro r
    rw [recvLoop, ih]
    omega

theorem sum_tokens_eq_countP (action : Option Action) (l : List DirEntry) :
    (l.map (fun e => pipelineTokens e.env action e.markers e.rel)).sum =
      l.countP (fun e => pipelineTokens e.env action e.markers e.rel == 1) := by
  induction l with
  | nil => simp
  | cons e l ih =>
    have he := pipelineTokens_le_one e.env action e.markers e.rel
    rcases Nat.le_one_iff_eq_zero_or_eq_one.mp he with h | h <;>
      simp [List.countP_cons, h, ih] <;> omega

/-- C4: for every repository, the dependency-update step invokes exactly the
managers selected by marker-file presence in the source's fixed order: within
the Node.js family at most one fires (npm for package-lock.json, else Yarn for
yarn.lock, else pnpm for pnpm-lock.yaml), within the Python family at most one
fires (Pipenv for Pipfile, else Poetry for poetry.lock, else pip for
requirements.txt), the Cargo check fires independently of both families, each
matching manager is invoked exactly once with its fixed command, and when no
marker matches the no-recognized-manager diagnostic is emitted and no command
is invoked.  Stated for worlds where every selected command launches, so the
trace is not cut short by a panic. -/
theorem update_dependencies_marker_dispatch (env : Env) (m : MarkerFiles)
    (repo : String) (h : allLaunched env) :
    (∃ t, update_dependencies env m repo = Except.ok t) ∧
    invocationsOf (update_dependencies env m repo) =
      (if m.packageLockJson then [("npm", ["install"], "npm")]
       else if m.yarnLock then [("yarn", ["install"], "Yarn")]
       else if m.pnpmLockYaml then [("pnpm", ["install"], "pnpm")]
       else [])
      ++ (if m.cargoLock then [("cargo", ["update"], "Cargo")] else [])
      ++ (if m.pipfile then [("pipenv", ["install"], "Pipenv")]
          else if m.poetryLock then [("poetry", ["update"], "Poetry")]
          else if m.requirementsTxt then
            [("pip", ["install", "-r", "requirements.txt"], "pip")]
          else []) ∧
    (m = markersNone →
      update_dependencies env m repo =
        Except.ok [Step.diagnostic ("Updating dependencies for " ++ repo),
                   Step.diagnostic ("No recognized dependency manager found for " ++ repo)]) :=
  update_dependencies_dispatch_aux env m repo h

theorem update_dependencies_marker_dispatch_witness :
    allLaunched envAll ∧
    ((∃ t, update_dependencies envAll markersW "A" = Except.ok t) ∧
     invocationsOf (update_dependencies envAll markersW "A") =
       [("npm", ["install"], "npm"), ("cargo", ["update"], "Cargo")] ∧
     (markersW = markersNone →
       update_dependencies envAll markersW "A" =
         Except.ok [Step.diagnostic "Updating dependencies for A",
                    Step.diagnostic "No recognized dependency manager found for A"])) :=
  ⟨fun _ _ => rfl,
   update_dependencies_marker_dispatch envAll markersW "A" (fun _ _ => rfl)⟩

/-- C5: for every repository processed with the update action, the
dependency-update step runs after the pull step without inspecting the pull
step's outcome.  Two worlds that differ only in what `git` does — in both of
which `git pull` launches, but may write different lines and exit with
different statuses — produce exactly the same dependency-update behaviour and
the same post-pull trace: a pull failure neither skips nor changes the
dependency update. -/
theorem pull_failure_does_not_skip_update (env1 env2 : Env) (m : MarkerFiles)
    (repo : String)
    (hagree : ∀ c a, c ≠ "git" → env1 c a = env2 c a)
    (h1 : (env1 "git" ["pull"]).launches = true)
    (h2 : (env2 "git" ["pull"]).launches = true) :
    Except.map (List.drop 3) (process_repository env1 (some Action.update) m repo) =
      Except.map (List.drop 3) (process_repository env2 (some Action.update) m repo) ∧
    update_dependencies env1 m repo = update_dependencies env2 m repo := by
  have hu := update_dependencies_env_congr env1 env2 m repo hagree
  obtain ⟨r1, hp1⟩ := pull_repo_ok env1 repo h1
  obtain ⟨r2, hp2⟩ := pull_repo_ok env2 repo h2
  refine ⟨?_, hu⟩
  simp only [process_repository, hp1, hp2, hu]
  cases hud : update_dependencies env2 m repo <;> simp [Except.map]

theorem pull_failure_does_not_skip_update_witness :
    (∀ c a, c ≠ "git" → envPullFails c a = envPullSucceeds c a) ∧
    (envPullFails "git" ["pull"]).launches = true ∧
    (envPullSucceeds "git" ["pull"]).launches = true ∧
    (Except.map (List.drop 3)
        (process_repository envPullFails (some Action.update) markersW "B") =
      Except.map (List.drop 3)
        (process_repository envPullSucceeds (some Action.update) markersW "B") ∧
     update_dependencies envPullFails markersW "B" =
       update_dependencies envPullSucceeds markersW "B") := by
  have hagree : ∀ c a, c ≠ "git" → envPullFails c a = envPullSucceeds c a := by
    intro c a hc
    simp [envPullFails, envPullSucceeds, hc]
  exact ⟨hagree, rfl, rfl,
    pull_failure_does_not_skip_update envPullFails envPullSucceeds markersW "B"
      hagree rfl rfl⟩

/-- C1 counterexample: a pipeline whose `git pull` process fails to launch.
`Command::spawn` returns an error, the `expect` panics the spawned task before
`tx.send(())` runs, and the pipeline sends zero CompletionTokens — not the
claimed exactly one. -/
theorem pipeline_token_lost_on_launch_failure :
    pipelineTokens envLaunchFail (some Action.update) markersW "r" = 0 := rfl

/-- C1 (amended): every pipeline sends exactly one CompletionToken regardless
of how many command invocations it performed and regardless of their exit
statuses, provided every invoked process launches; a failure to launch an
external process panics that pipeline's task before the send, so such a
pipeline sends zero tokens instead of one. -/
theorem pipeline_sends_one_token (env : Env) (action : Option Action)
    (m : MarkerFiles) (repo : String) (h : allLaunched env) :
    pipelineTokens env action m repo = 1 :=
  pipelineTokens_eq_one env action m repo h

theorem pipeline_sends_one_token_witness :
    allLaunched envAll ∧
      pipelineTokens envAll (some Action.update) markersW "A" = 1 :=
  ⟨fun _ _ => rfl,
   pipeline_sends_one_token envAll (some Action.update) markersW "A"
     (fun _ _ => rfl)⟩

/-- C3 counterexample: one discovered repository whose pipeline panics at the
first spawn.  Discovery yields one handle, but `process_repositories` returns
after observing zero completion signals, not one: the panicked task's sender
clone is dropped without a send, which closes the channel. -/
theorem run_returns_with_missing_signal :
    (discovered [entryFail]).length = 1 ∧
      process_repositories [entryFail] (some Action.update) = 0 := ⟨rfl, rfl⟩

/-- C3 (amended): when every discovered pipeline completes normally — in
particular whenever every external process launch succeeds, exit failures
included — `process_repositories` returns exactly after the Nth completion
signal, N the number of discovered repository handles: the drain loop receives
exactly N tokens and then `recv` reports the channel closed.  A pipeline that
panics instead contributes no signal, and the loop then returns after fewer
than N signals. -/
theorem run_observes_token_per_completed_pipeline (entries : List DirEntry)
    (action : Option Action) (h : ∀ e ∈ entries, allLaunched e.env) :
    process_repositories entries action = (discovered entries).length := by
  unfold process_repositories
  rw [channelAfterRun_eq, recvLoop_eq]
  simp only [Nat.zero_add]
  rw [List.countP_eq_length]
  intro e he
  have hm : e ∈ entries := List.mem_of_mem_filter he
  simp [pipelineTokens_eq_one e.env action e.markers e.rel (h e hm)]

theorem run_observes_token_per_completed_pipeline_witness :
    (∀ e ∈ [entryOk, entryNotRepo], allLaunched e.env) ∧
      process_repositories [entryOk, entryNotRepo] (some Action.update) =
        (discovered [entryOk, entryNotRepo]).length := by
  have h : ∀ e ∈ [entryOk, entryNotRepo], allLaunched e.env := by
    intro e he
    simp at he
    rcases he with rfl | rfl
    · intro c a; rfl
    · intro c a; rfl
  exact ⟨h, run_observes_token_per_completed_pipeline _ _ h⟩

/-- C10: the completion-drain loop of `process_repositories` terminates
because every clone of the channel sender is eventually dropped: the original
`tx` is dropped after the walk, a normally completing task drops its clone
after its send, and a task that aborts by panicking before sending — as
happens when a process launch fails — drops its clone on abort.  The final
sender count is zero in every world, the channel therefore closes, and the
drain loop (a total function) returns after receiving exactly the tokens that
were sent, so `process_repositories` returns rather than waiting forever for
a missing token. -/
theorem drain_terminates_when_senders_dropped (entries : List DirEntry)
    (action : Option Action) :
    (channelAfterRun entries action).senders = 0 ∧
      process_repositories entries action = tokensSent entries action := by
  constructor
  · rw [channelAfterRun_eq]
  · unfold process_repositories tokensSent
    rw [channelAfterRun_eq, recvLoop_eq, sum_tokens_eq_countP]
    simp

end Mpr
